import Mathlib

/-!
Shallow embedding of `notifier/stomp/failover.go` (package `stomp`).

The file models the `failOver` connector: its `Dial` method (build connect
options from the optional login, select a plain or TLS dialer from the
optional TLS config, dial the transport, run the STOMP connect handshake,
and close the transport socket when the handshake fails) and its
`Connection` method (iterate the broker URIs in order, return the first
successful `Dial` result, and return an exhaustion error when every dial
fails).

The network world is an oracle `Env` deciding, per URI, whether the
transport dial and the protocol handshake succeed, plus the underlying
error texts that the Go code wraps. The caller context is modelled by a
`cancelled` flag: `net.Dialer.DialContext` (and `tls.Dialer.DialContext`)
on an already-cancelled context returns the context error promptly without
opening a socket. Each operation returns the Go pair `(conn, err)`
verbatim, a trace of observable events (dial attempts with the dialer kind
used, socket opens and closes, handshake attempts with the options
presented), and the post-state of the receiver, so that frame properties
are explicit.
-/

namespace Stomp

/-- `config.Login`: a login/passcode pair. -/
structure Login where
  login : String
  passcode : String
  deriving DecidableEq, Repr

/-- Stand-in for `tls.Config`; the code only tests it against nil and hands
it to the TLS dialer, so its contents are irrelevant to the claims. -/
structure TLSConfig where
  serverName : String
  deriving DecidableEq, Repr

/-- The `failOver` struct: optional TLS config, optional credentials, and
the ordered broker URI list. -/
structure failOver where
  tls : Option TLSConfig
  login : Option Login
  uris : List String
  deriving DecidableEq, Repr

/-- A STOMP connect option, as produced by `gostomp.ConnOpt.Login`. -/
inductive ConnOpt where
  | loginOpt (login passcode : String)
  deriving DecidableEq, Repr

/-- Which dialer `Dial` uses: the bare `net.Dialer` or the `tls.Dialer`
wrapping it. -/
inductive DialerKind where
  | plainTCP
  | tlsWrapped
  deriving DecidableEq, Repr

/-- The errors `Dial` and `Connection` can return: the dial wrap
(`failed to connect to broker @ %v: %w`), the handshake wrap
(`stomp connect handshake to broker @ %v failed: %w`), and the final
`exhausted all brokers and unable to make connection` error. -/
inductive GoErr where
  | dialErr (uri cause : String)
  | handshakeErr (uri cause : String)
  | exhausted
  deriving DecidableEq, Repr

/-- A `*gostomp.Conn`: the session returned by a successful handshake,
recording the URI it is bound to and the options presented. -/
structure StompConn where
  uri : String
  opts : List ConnOpt
  deriving DecidableEq, Repr

/-- The caller context, reduced to what the code can observe of it:
whether it is cancelled. -/
structure Ctx where
  cancelled : Bool
  deriving DecidableEq, Repr

/-- The network oracle: per URI, whether the transport dial succeeds,
whether the STOMP handshake succeeds, and the underlying error texts. -/
structure Env where
  dialOk : String → Bool
  handshakeOk : String → Bool
  dialCause : String → String
  handshakeCause : String → String

/-- Observable events of one call. -/
inductive Event where
  | dialAttempt (kind : DialerKind) (uri : String)
  | socketOpen (uri : String)
  | handshakeAttempt (uri : String) (opts : List ConnOpt)
  | socketClose (uri : String)
  deriving DecidableEq, Repr

/-- The `opts` slice built at the top of `failOver.Dial`: a single login
option when `f.login != nil`, empty otherwise. -/
def connOpts (f : failOver) : List ConnOpt :=
  match f.login with
  | some l => [ConnOpt.loginOpt l.login l.passcode]
  | none => []

/-- The dialer selected in `failOver.Dial`: `tls.Dialer` when
`f.tls != nil`, the plain `net.Dialer` otherwise. -/
def dialerKind (f : failOver) : DialerKind :=
  match f.tls with
  | some _ => DialerKind.tlsWrapped
  | none => DialerKind.plainTCP

/-- `failOver.Dial`: build options, select the dialer, `DialContext`,
then `gostomp.Connect`; on handshake failure close the transport
connection before returning the wrapped error. Returns the Go result pair
`(conn, err)`, the event trace, and the receiver post-state. -/
def Dial (f : failOver) (ctx : Ctx) (uri : String) (env : Env) :
    (Option StompConn × Option GoErr) × List Event × failOver :=
  let opts := connOpts f
  let k := dialerKind f
  if ctx.cancelled then
    ((none, some (GoErr.dialErr uri "context canceled")),
      [Event.dialAttempt k uri], f)
  else if env.dialOk uri then
    if env.handshakeOk uri then
      ((some ⟨uri, opts⟩, none),
        [Event.dialAttempt k uri, Event.socketOpen uri,
         Event.handshakeAttempt uri opts], f)
    else
      ((none, some (GoErr.handshakeErr uri (env.handshakeCause uri))),
        [Event.dialAttempt k uri, Event.socketOpen uri,
         Event.handshakeAttempt uri opts, Event.socketClose uri], f)
  else
    ((none, some (GoErr.dialErr uri (env.dialCause uri))),
      [Event.dialAttempt k uri], f)

/-- The `for _, uri := range f.uris` loop body of `failOver.Connection`:
dial each URI in turn; on `err != nil` log and continue, otherwise return
`(conn, nil)`; after the loop return the exhaustion error. The receiver
state is threaded through each call. -/
def connectionLoop : failOver → Ctx → Env → List String →
    (Option StompConn × Option GoErr) × List Event × failOver
  | f, _, _, [] => ((none, some GoErr.exhausted), [], f)
  | f, ctx, env, uri :: rest =>
    let D := Dial f ctx uri env
    match D.1.2 with
    | none => ((D.1.1, none), D.2.1, D.2.2)
    | some _ =>
      let R := connectionLoop D.2.2 ctx env rest
      (R.1, D.2.1 ++ R.2.1, R.2.2)

/-- `failOver.Connection`: run the failover loop over `f.uris`. -/
def Connection (f : failOver) (ctx : Ctx) (env : Env) :
    (Option StompConn × Option GoErr) × List Event × failOver :=
  connectionLoop f ctx env f.uris

/-- The URIs for which a dial attempt was started, in trace order. -/
def attemptedUris (evs : List Event) : List String :=
  evs.filterMap fun e =>
    match e with
    | Event.dialAttempt _ u => some u
    | _ => none

/-- The URIs for which a transport socket was opened, in trace order. -/
def openedSockets (evs : List Event) : List String :=
  evs.filterMap fun e =>
    match e with
    | Event.socketOpen u => some u
    | _ => none

/-- The URIs for which a transport socket was closed, in trace order. -/
def closedSockets (evs : List Event) : List String :=
  evs.filterMap fun e =>
    match e with
    | Event.socketClose u => some u
    | _ => none

/-- An attempt at `u` fails when the transport dial or the handshake
fails. -/
def attemptFails (env : Env) (u : String) : Prop :=
  env.dialOk u = false ∨ env.handshakeOk u = false

theorem attemptedUris_append (a b : List Event) :
    attemptedUris (a ++ b) = attemptedUris a ++ attemptedUris b :=
  List.filterMap_append a b _

theorem openedSockets_append (a b : List Event) :
    openedSockets (a ++ b) = openedSockets a ++ openedSockets b :=
  List.filterMap_append a b _

/-- `Dial` never mutates the receiver. -/
theorem Dial_state (f : failOver) (ctx : Ctx) (uri : String) (env : Env) :
    (Dial f ctx uri env).2.2 = f := by
  cases hc : ctx.cancelled <;>
    cases hd : env.dialOk uri <;>
      cases hh : env.handshakeOk uri <;>
        simp [Dial, hc, hd, hh]

/-- A failing attempt (dial or handshake failure, context live) yields an
error, no connection, and exactly one dial attempt in its trace. -/
theorem Dial_fail (f : failOver) (env : Env) (e : String)
    (h : attemptFails env e) :
    (Dial f ⟨false⟩ e env).1.1 = none ∧
    (Dial f ⟨false⟩ e env).1.2 ≠ none ∧
    attemptedUris (Dial f ⟨false⟩ e env).2.1 = [e] := by
  rcases h with h | h
  · simp [Dial, h, attemptedUris]
  · cases hd : env.dialOk e <;> simp [Dial, h, hd, attemptedUris]

/-- A successful attempt yields the handshaked connection and the
three-event trace. -/
theorem Dial_success (f : failOver) (env : Env) (u : String)
    (hd : env.dialOk u = true) (hh : env.handshakeOk u = true) :
    Dial f ⟨false⟩ u env =
      ((some ⟨u, connOpts f⟩, none),
        [Event.dialAttempt (dialerKind f) u, Event.socketOpen u,
         Event.handshakeAttempt u (connOpts f)], f) := by
  simp [Dial, hd, hh]

/-- Unfolding the loop when the head dial succeeds (`err == nil`):
the loop returns that connection at once. -/
theorem connectionLoop_cons_ok (f : failOver) (ctx : Ctx) (env : Env)
    (u : String) (rest : List String)
    (h : (Dial f ctx u env).1.2 = none) :
    connectionLoop f ctx env (u :: rest) =
      (((Dial f ctx u env).1.1, none),
        (Dial f ctx u env).2.1, (Dial f ctx u env).2.2) := by
  simp only [connectionLoop, h]

/-- Unfolding the loop when the head dial fails (`err != nil`):
the loop logs and continues with the remaining URIs. -/
theorem connectionLoop_cons_err (f : failOver) (ctx : Ctx) (env : Env)
    (u : String) (rest : List String) (e : GoErr)
    (h : (Dial f ctx u env).1.2 = some e) :
    connectionLoop f ctx env (u :: rest) =
      ((connectionLoop (Dial f ctx u env).2.2 ctx env rest).1,
        (Dial f ctx u env).2.1 ++
          (connectionLoop (Dial f ctx u env).2.2 ctx env rest).2.1,
        (connectionLoop (Dial f ctx u env).2.2 ctx env rest).2.2) := by
  simp only [connectionLoop, h]

/-- The loop never mutates the receiver. -/
theorem connectionLoop_state (ctx : Ctx) (env : Env) (l : List String) :
    ∀ f : failOver, (connectionLoop f ctx env l).2.2 = f := by
  induction l with
  | nil => intro f; rfl
  | cons u rest ih =>
    intro f
    rcases ho : (Dial f ctx u env).1.2 with _ | e
    · rw [connectionLoop_cons_ok f ctx env u rest ho, Dial_state]
    · rw [connectionLoop_cons_err f ctx env u rest e ho, Dial_state]
      exact ih f

/-- When every URI in the list fails, the loop attempts each exactly once
in order and ends in the exhaustion error. -/
theorem connectionLoop_all_fail (env : Env) (l : List String)
    (h : ∀ e ∈ l, attemptFails env e) :
    ∀ f : failOver,
      (connectionLoop f ⟨false⟩ env l).1 = (none, some GoErr.exhausted) ∧
      attemptedUris (connectionLoop f ⟨false⟩ env l).2.1 = l := by
  induction l with
  | nil => intro f; exact ⟨rfl, rfl⟩
  | cons u rest ih =>
    intro f
    obtain ⟨h1, h2, h3⟩ := Dial_fail f env u (h u (by simp))
    rcases ho : (Dial f ⟨false⟩ u env).1.2 with _ | e
    · exact absurd ho h2
    · rw [connectionLoop_cons_err f _ env u rest e ho, Dial_state]
      obtain ⟨ih1, ih2⟩ := ih (fun x hx => h x (List.mem_cons_of_mem u hx)) f
      refine ⟨ih1, ?_⟩
      rw [attemptedUris_append, h3, ih2]
      rfl

/-- When every URI before `u` fails and `u` succeeds, the loop attempts
exactly the failing prefix then `u`, and returns the connection for `u`. -/
theorem connectionLoop_first_success (env : Env) (u : String)
    (post : List String) (hd : env.dialOk u = true)
    (hh : env.handshakeOk u = true) (pre : List String)
    (hpre : ∀ e ∈ pre, attemptFails env e) :
    ∀ f : failOver,
      (connectionLoop f ⟨false⟩ env (pre ++ u :: post)).1 =
        (some ⟨u, connOpts f⟩, none) ∧
      attemptedUris (connectionLoop f ⟨false⟩ env (pre ++ u :: post)).2.1 =
        pre ++ [u] := by
  induction pre with
  | nil =>
    intro f
    have hD := Dial_success f env u hd hh
    have ho : (Dial f ⟨false⟩ u env).1.2 = none := by rw [hD]
    rw [List.nil_append, connectionLoop_cons_ok f _ env u post ho, hD]
    exact ⟨rfl, rfl⟩
  | cons p pre ih =>
    intro f
    obtain ⟨h1, h2, h3⟩ := Dial_fail f env p (hpre p (by simp))
    rcases ho : (Dial f ⟨false⟩ p env).1.2 with _ | e
    · exact absurd ho h2
    · rw [List.cons_append, connectionLoop_cons_err f _ env p _ e ho, Dial_state]
      obtain ⟨ih1, ih2⟩ := ih (fun x hx => hpre x (List.mem_cons_of_mem p hx)) f
      refine ⟨ih1, ?_⟩
      rw [attemptedUris_append, h3, ih2]
      rfl

/-- On an already-cancelled context every dial fails fast without opening
a socket; the loop still attempts every URI and ends exhausted. -/
theorem connectionLoop_cancelled (env : Env) (l : List String) :
    ∀ f : failOver,
      (connectionLoop f ⟨true⟩ env l).1 = (none, some GoErr.exhausted) ∧
      attemptedUris (connectionLoop f ⟨true⟩ env l).2.1 = l ∧
      openedSockets (connectionLoop f ⟨true⟩ env l).2.1 = [] := by
  induction l with
  | nil => intro f; exact ⟨rfl, rfl, rfl⟩
  | cons u rest ih =>
    intro f
    have hD : Dial f ⟨true⟩ u env =
        ((none, some (GoErr.dialErr u "context canceled")),
          [Event.dialAttempt (dialerKind f) u], f) := rfl
    have ho : (Dial f ⟨true⟩ u env).1.2 =
        some (GoErr.dialErr u "context canceled") := by rw [hD]
    rw [connectionLoop_cons_err f _ env u rest _ ho, Dial_state]
    obtain ⟨ih1, ih2, ih3⟩ := ih f
    refine ⟨ih1, ?_, ?_⟩
    · rw [attemptedUris_append, hD, ih2]; rfl
    · rw [openedSockets_append, hD, ih3]; rfl

/-- An event is well formed for `f` when its dialer kind and its handshake
options are the ones `f` determines. -/
def eventWellFormed (f : failOver) : Event → Prop
  | Event.dialAttempt k _ => k = dialerKind f
  | Event.handshakeAttempt _ opts => opts = connOpts f
  | _ => True

/-- Every event `Dial` emits is well formed for the receiver. -/
theorem Dial_events_wf (f : failOver) (ctx : Ctx) (u : String) (env : Env) :
    ∀ e ∈ (Dial f ctx u env).2.1, eventWellFormed f e := by
  intro e he
  cases hc : ctx.cancelled <;> cases hd : env.dialOk u <;>
    cases hh : env.handshakeOk u <;>
      simp [Dial, hc, hd, hh] at he <;>
        rcases he with he | he | he | he <;>
          simp_all [eventWellFormed]

/-- Every event the loop emits is well formed for the receiver. -/
theorem connectionLoop_events_wf (ctx : Ctx) (env : Env) (l : List String) :
    ∀ (f : failOver) (e : Event),
      e ∈ (connectionLoop f ctx env l).2.1 → eventWellFormed f e := by
  induction l with
  | nil => intro f e he; exact absurd he (List.not_mem_nil e)
  | cons u rest ih =>
    intro f e he
    rcases ho : (Dial f ctx u env).1.2 with _ | ge
    · rw [connectionLoop_cons_ok f ctx env u rest ho] at he
      exact Dial_events_wf f ctx u env e he
    · rw [connectionLoop_cons_err f ctx env u rest ge ho, Dial_state] at he
      rcases List.mem_append.mp he with h | h
      · exact Dial_events_wf f ctx u env e h
      · exact ih f e h

/-- `Dial` returns a connection exactly when it returns no error. -/
theorem Dial_exclusive (f : failOver) (ctx : Ctx) (u : String) (env : Env) :
    (Dial f ctx u env).1.1.isSome = true ↔ (Dial f ctx u env).1.2 = none := by
  cases hc : ctx.cancelled <;> cases hd : env.dialOk u <;>
    cases hh : env.handshakeOk u <;> simp [Dial, hc, hd, hh]

/-- The loop returns a connection exactly when it returns no error. -/
theorem connectionLoop_exclusive (ctx : Ctx) (env : Env) (l : List String) :
    ∀ f : failOver,
      (connectionLoop f ctx env l).1.1.isSome = true ↔
        (connectionLoop f ctx env l).1.2 = none := by
  induction l with
  | nil => intro f; simp [connectionLoop]
  | cons u rest ih =>
    intro f
    rcases ho : (Dial f ctx u env).1.2 with _ | ge
    · rw [connectionLoop_cons_ok f ctx env u rest ho]
      have := (Dial_exclusive f ctx u env).mpr ho
      simpa using this
    · rw [connectionLoop_cons_err f ctx env u rest ge ho]
      exact ih (Dial f ctx u env).2.2

/-- A connection returned by `Dial` is bound to the dialed URI, carries the
receiver's options, and exists only after a successful handshake whose
attempt is in the trace. -/
theorem Dial_success_inv (f : failOver) (ctx : Ctx) (u : String) (env : Env)
    (c : StompConn) (h : (Dial f ctx u env).1.1 = some c) :
    env.handshakeOk u = true ∧ c = ⟨u, connOpts f⟩ ∧
    Event.handshakeAttempt u (connOpts f) ∈ (Dial f ctx u env).2.1 := by
  cases hc : ctx.cancelled <;> cases hd : env.dialOk u <;>
    cases hh : env.handshakeOk u <;> simp [Dial, hc, hd, hh] at h ⊢
  exact h.symm

/-- A connection returned by the loop is bound to some URI whose handshake
succeeded, and the handshake attempt is in the trace. -/
theorem connectionLoop_success_inv (ctx : Ctx) (env : Env) (l : List String) :
    ∀ (f : failOver) (c : StompConn),
      (connectionLoop f ctx env l).1.1 = some c →
      env.handshakeOk c.uri = true ∧
      Event.handshakeAttempt c.uri (connOpts f) ∈
        (connectionLoop f ctx env l).2.1 := by
  induction l with
  | nil => intro f c h; exact absurd h (by simp [connectionLoop])
  | cons u rest ih =>
    intro f c h
    rcases ho : (Dial f ctx u env).1.2 with _ | ge
    · rw [connectionLoop_cons_ok f ctx env u rest ho] at h ⊢
      obtain ⟨h1, h2, h3⟩ := Dial_success_inv f ctx u env c h
      subst h2
      exact ⟨h1, h3⟩
    · rw [connectionLoop_cons_err f ctx env u rest ge ho, Dial_state] at h ⊢
      obtain ⟨h1, h2⟩ := ih f c h
      exact ⟨h1, List.mem_append_right _ h2⟩

instance attemptFailsDecidable (env : Env) (u : String) :
    Decidable (attemptFails env u) := by
  unfold attemptFails
  infer_instance

/-- Demonstration oracle: broker b1 refuses the transport dial, broker b2
accepts the dial but rejects the handshake, every other broker accepts
both. -/
def demoEnv : Env :=
  ⟨fun u => u != "b1", fun u => u != "b2",
   fun _ => "connection refused", fun _ => "bad credentials"⟩

/-- A network oracle under which every broker is down. -/
def downEnv : Env :=
  ⟨fun _ => false, fun _ => false,
   fun _ => "connection refused", fun _ => "no response"⟩

/-- An anonymous plain-TCP connector over three brokers. -/
def demoFailOver : failOver := ⟨none, none, ["b1", "b2", "b3"]⟩

/-- A connector with credentials configured. -/
def credFailOver : failOver := ⟨none, some ⟨"guest", "guest"⟩, ["b3"]⟩

/-- A connector with a TLS config set. -/
def tlsFailOver : failOver := ⟨some ⟨"broker.example"⟩, none, ["b3"]⟩

/-- Claim C1: for a non-empty URI list in which every URI before `u` fails
and `u` succeeds, `Connection` returns the connection handshaked at `u`
with no error, having attempted exactly the failing prefix once each, in
list order, followed by `u` — and so no URI after `u` is ever attempted. -/
theorem connection_first_success (f : failOver) (env : Env)
    (pre post : List String) (u : String)
    (huris : f.uris = pre ++ u :: post)
    (hpre : ∀ e ∈ pre, attemptFails env e)
    (hd : env.dialOk u = true) (hh : env.handshakeOk u = true) :
    (Connection f ⟨false⟩ env).1 = (some ⟨u, connOpts f⟩, none) ∧
    attemptedUris (Connection f ⟨false⟩ env).2.1 = pre ++ [u] := by
  unfold Connection
  rw [huris]
  exact connectionLoop_first_success env u post hd hh pre hpre f

theorem connection_first_success_witness :
    demoFailOver.uris = ["b1", "b2"] ++ "b3" :: [] ∧
    (∀ e ∈ ["b1", "b2"], attemptFails demoEnv e) ∧
    demoEnv.dialOk "b3" = true ∧ demoEnv.handshakeOk "b3" = true ∧
    ((Connection demoFailOver ⟨false⟩ demoEnv).1 =
        (some ⟨"b3", connOpts demoFailOver⟩, none) ∧
      attemptedUris (Connection demoFailOver ⟨false⟩ demoEnv).2.1 =
        ["b1", "b2"] ++ ["b3"]) :=
  ⟨rfl, by decide, rfl, rfl,
    connection_first_success demoFailOver demoEnv ["b1", "b2"] [] "b3" rfl
      (by decide) rfl rfl⟩

/-- Claim C2: when every URI in the list fails, `Connection` returns no
connection and the exhaustion error, and the dial attempts are exactly the
URI list: every URI attempted exactly once, in list order, no retries. -/
theorem connection_exhausted (f : failOver) (env : Env)
    (h : ∀ e ∈ f.uris, attemptFails env e) :
    (Connection f ⟨false⟩ env).1 = (none, some GoErr.exhausted) ∧
    attemptedUris (Connection f ⟨false⟩ env).2.1 = f.uris :=
  connectionLoop_all_fail env f.uris h f

theorem connection_exhausted_witness :
    (∀ e ∈ (failOver.mk none none ["b1", "b2"]).uris, attemptFails downEnv e) ∧
    ((Connection ⟨none, none, ["b1", "b2"]⟩ ⟨false⟩ downEnv).1 =
        (none, some GoErr.exhausted) ∧
      attemptedUris
          (Connection ⟨none, none, ["b1", "b2"]⟩ ⟨false⟩ downEnv).2.1 =
        (failOver.mk none none ["b1", "b2"]).uris) :=
  ⟨by decide, connection_exhausted ⟨none, none, ["b1", "b2"]⟩ downEnv (by decide)⟩

/-- Claim C3 counterexample: with the caller context already cancelled and
brokers b1, b2 configured, `Connection` does not stop after the first
attempt and does not return a cancellation error: the dial for b2 is still
attempted after b1, and the returned error is the exhaustion error. -/
theorem connection_cancelled_counterexample :
    (Connection ⟨none, none, ["b1", "b2"]⟩ ⟨true⟩ demoEnv).1 =
      (none, some GoErr.exhausted) ∧
    "b2" ∈ attemptedUris
        (Connection ⟨none, none, ["b1", "b2"]⟩ ⟨true⟩ demoEnv).2.1 := by
  exact ⟨rfl, by decide⟩

/-- Claim C3 amended: when the caller context is already cancelled before
the call, no socket is ever opened, but `Connection` still attempts every
configured broker in order — each dial failing fast with the context
error — and returns the exhaustion error, not a cancellation error. -/
theorem connection_cancelled_amended (f : failOver) (env : Env) :
    (Connection f ⟨true⟩ env).1 = (none, some GoErr.exhausted) ∧
    attemptedUris (Connection f ⟨true⟩ env).2.1 = f.uris ∧
    openedSockets (Connection f ⟨true⟩ env).2.1 = [] :=
  connectionLoop_cancelled env f.uris f

/-- Claim C4: when the transport dial succeeds and the handshake fails,
`Dial` returns no connection and the wrapped handshake error, and its
trace opens the socket and closes it again as its final event — so the
socket is closed before `Dial` returns and hence before any next endpoint
is attempted; moreover every failing `Dial` leaves opens and closes
balanced (no socket left open). -/
theorem Dial_handshake_failure_closes_socket (f : failOver) (u : String)
    (env : Env) (hd : env.dialOk u = true) (hh : env.handshakeOk u = false) :
    (Dial f ⟨false⟩ u env).1.1 = none ∧
    (Dial f ⟨false⟩ u env).1.2 =
      some (GoErr.handshakeErr u (env.handshakeCause u)) ∧
    (Dial f ⟨false⟩ u env).2.1 =
      [Event.dialAttempt (dialerKind f) u, Event.socketOpen u,
       Event.handshakeAttempt u (connOpts f), Event.socketClose u] ∧
    (∀ (ctx : Ctx) (v : String), (Dial f ctx v env).1.1 = none →
      openedSockets (Dial f ctx v env).2.1 =
        closedSockets (Dial f ctx v env).2.1) := by
  refine ⟨by simp [Dial, hd, hh], by simp [Dial, hd, hh],
    by simp [Dial, hd, hh], ?_⟩
  intro ctx v h
  cases hc : ctx.cancelled <;> cases hdv : env.dialOk v <;>
    cases hhv : env.handshakeOk v <;>
      simp_all [Dial, openedSockets, closedSockets]

theorem Dial_handshake_failure_closes_socket_witness :
    demoEnv.dialOk "b2" = true ∧ demoEnv.handshakeOk "b2" = false ∧
    ((Dial demoFailOver ⟨false⟩ "b2" demoEnv).1.1 = none ∧
      (Dial demoFailOver ⟨false⟩ "b2" demoEnv).1.2 =
        some (GoErr.handshakeErr "b2" (demoEnv.handshakeCause "b2")) ∧
      (Dial demoFailOver ⟨false⟩ "b2" demoEnv).2.1 =
        [Event.dialAttempt (dialerKind demoFailOver) "b2",
         Event.socketOpen "b2",
         Event.handshakeAttempt "b2" (connOpts demoFailOver),
         Event.socketClose "b2"] ∧
      (∀ (ctx : Ctx) (v : String),
        (Dial demoFailOver ctx v demoEnv).1.1 = none →
        openedSockets (Dial demoFailOver ctx v demoEnv).2.1 =
          closedSockets (Dial demoFailOver ctx v demoEnv).2.1)) :=
  ⟨rfl, rfl,
    Dial_handshake_failure_closes_socket demoFailOver "b2" demoEnv rfl rfl⟩

/-- Claim C5: on an empty URI list, `Connection` returns no connection and
the exhaustion error, with an empty trace — zero dial attempts. -/
theorem connection_empty_uris (tlsc : Option TLSConfig) (lg : Option Login)
    (ctx : Ctx) (env : Env) :
    (Connection ⟨tlsc, lg, []⟩ ctx env).1 = (none, some GoErr.exhausted) ∧
    (Connection ⟨tlsc, lg, []⟩ ctx env).2.1 = [] ∧
    attemptedUris (Connection ⟨tlsc, lg, []⟩ ctx env).2.1 = [] :=
  ⟨rfl, rfl, rfl⟩

/-- Claim C6: no partial success is observable: a connection returned by
`Dial` exists only for a URI whose handshake succeeded and whose handshake
attempt is in the trace, and the same holds for any connection returned by
`Connection`. -/
theorem no_partial_success (f : failOver) (ctx : Ctx) (env : Env) :
    (∀ (u : String) (c : StompConn), (Dial f ctx u env).1.1 = some c →
      env.handshakeOk u = true ∧ c.uri = u ∧
      Event.handshakeAttempt u (connOpts f) ∈ (Dial f ctx u env).2.1) ∧
    (∀ c : StompConn, (Connection f ctx env).1.1 = some c →
      env.handshakeOk c.uri = true ∧
      Event.handshakeAttempt c.uri (connOpts f) ∈
        (Connection f ctx env).2.1) := by
  constructor
  · intro u c h
    obtain ⟨h1, h2, h3⟩ := Dial_success_inv f ctx u env c h
    subst h2
    exact ⟨h1, rfl, h3⟩
  · intro c h
    exact connectionLoop_success_inv ctx env f.uris f c h

theorem no_partial_success_witness :
    (Connection demoFailOver ⟨false⟩ demoEnv).1.1 =
      some ⟨"b3", connOpts demoFailOver⟩ ∧
    (demoEnv.handshakeOk "b3" = true ∧
      Event.handshakeAttempt "b3" (connOpts demoFailOver) ∈
        (Connection demoFailOver ⟨false⟩ demoEnv).2.1) :=
  ⟨rfl, (no_partial_success demoFailOver ⟨false⟩ demoEnv).2
    ⟨"b3", connOpts demoFailOver⟩ rfl⟩

/-- Claim C7: every handshake attempt in a `Connection` call presents
exactly the configured credentials: a single login option carrying the
configured login and passcode when credentials are set, and no options at
all when they are not. -/
theorem connection_handshake_credentials (f : failOver) (ctx : Ctx)
    (env : Env) (u : String) (opts : List ConnOpt)
    (h : Event.handshakeAttempt u opts ∈ (Connection f ctx env).2.1) :
    (∀ l : Login, f.login = some l →
      opts = [ConnOpt.loginOpt l.login l.passcode]) ∧
    (f.login = none → opts = []) := by
  have hopts : opts = connOpts f := connectionLoop_events_wf ctx env f.uris f _ h
  subst hopts
  obtain ⟨t, lo, us⟩ := f
  constructor
  · intro l hl
    cases hl
    rfl
  · intro hl
    cases hl
    rfl

theorem connection_handshake_credentials_witness :
    Event.handshakeAttempt "b3" [ConnOpt.loginOpt "guest" "guest"] ∈
      (Connection credFailOver ⟨false⟩ demoEnv).2.1 ∧
    ((∀ l : Login, credFailOver.login = some l →
        [ConnOpt.loginOpt "guest" "guest"] =
          [ConnOpt.loginOpt l.login l.passcode]) ∧
      (credFailOver.login = none →
        [ConnOpt.loginOpt "guest" "guest"] = ([] : List ConnOpt))) :=
  ⟨by decide, connection_handshake_credentials credFailOver ⟨false⟩ demoEnv
    "b3" [ConnOpt.loginOpt "guest" "guest"] (by decide)⟩

/-- Claim C8: every dial attempt — in any `Dial` call and in any
`Connection` call — uses the one dialer kind the connector determines, and
that kind is the TLS-wrapped dialer exactly when the TLS config field is
non-nil (the plain TCP dialer exactly when it is nil). -/
theorem Dial_tls_selection (f : failOver) (ctx : Ctx) (u : String)
    (env : Env) :
    (∀ (k : DialerKind) (v : String),
      Event.dialAttempt k v ∈ (Dial f ctx u env).2.1 → k = dialerKind f) ∧
    (∀ (k : DialerKind) (v : String),
      Event.dialAttempt k v ∈ (Connection f ctx env).2.1 →
        k = dialerKind f) ∧
    (dialerKind f = DialerKind.tlsWrapped ↔ f.tls ≠ none) ∧
    (dialerKind f = DialerKind.plainTCP ↔ f.tls = none) := by
  refine ⟨?_, ?_, ?_, ?_⟩
  · intro k v h
    exact Dial_events_wf f ctx u env _ h
  · intro k v h
    exact connectionLoop_events_wf ctx env f.uris f _ h
  · obtain ⟨t, lo, us⟩ := f
    cases t <;> simp [dialerKind]
  · obtain ⟨t, lo, us⟩ := f
    cases t <;> simp [dialerKind]

theorem Dial_tls_selection_witness :
    Event.dialAttempt DialerKind.tlsWrapped "b3" ∈
      (Dial tlsFailOver ⟨false⟩ "b3" demoEnv).2.1 ∧
    DialerKind.tlsWrapped = dialerKind tlsFailOver ∧
    (dialerKind tlsFailOver = DialerKind.tlsWrapped ↔
      tlsFailOver.tls ≠ none) :=
  ⟨by decide,
    (Dial_tls_selection tlsFailOver ⟨false⟩ "b3" demoEnv).1
      DialerKind.tlsWrapped "b3" (by decide),
    (Dial_tls_selection tlsFailOver ⟨false⟩ "b3" demoEnv).2.2.1⟩

/-- Claim C9: neither `Dial` nor `Connection` mutates the connector: the
receiver post-state equals the pre-state, so the URI list, credentials and
TLS config fields are all unchanged and no residual per-call state
remains. -/
theorem failOver_not_mutated (f : failOver) (ctx : Ctx) (u : String)
    (env : Env) :
    (Dial f ctx u env).2.2 = f ∧ (Connection f ctx env).2.2 = f ∧
    (Connection f ctx env).2.2.uris = f.uris ∧
    (Connection f ctx env).2.2.login = f.login ∧
    (Connection f ctx env).2.2.tls = f.tls := by
  have h : (Connection f ctx env).2.2 = f := connectionLoop_state ctx env f.uris f
  exact ⟨Dial_state f ctx u env, h, by rw [h], by rw [h], by rw [h]⟩

/-- Claim C10: `Dial` and `Connection` each return a connection exactly
when they return no error: never both nil and never both non-nil. -/
theorem Dial_Connection_result_exclusive (f : failOver) (ctx : Ctx)
    (u : String) (env : Env) :
    ((Dial f ctx u env).1.1.isSome = true ↔ (Dial f ctx u env).1.2 = none) ∧
    ((Connection f ctx env).1.1.isSome = true ↔
      (Connection f ctx env).1.2 = none) :=
  ⟨Dial_exclusive f ctx u env, connectionLoop_exclusive ctx env f.uris f⟩

end Stomp
